import Mathlib

/-!
# Verification of STEPanizerizer.py

A shallow embedding of the slice-sampling, calibration and export logic of
`STEPanizerizer.py` (single-script tool preparing tomographic slice stacks for
the STEPanizer stereology viewer), together with theorems settling the frozen
claims about its specification.

Conventions of the embedding:
* Python `int` values that are non-negative in every modelled run are `Nat`;
  exact fractional values (Python `float` arithmetic on small integer inputs)
  are `ℚ`.
* Fallible code is `Except String` / `Option`; an `Except.error` models an
  uncaught Python exception or an explicit `sys.exit` / `parser.error`
  (non-zero process exit).
* The single call to `numpy.random.randint(StepWidth)` is modelled by reducing
  an arbitrary external random source `r : Nat` modulo the bound; the
  embedding performs this draw exactly once per modelled run, as the script
  evaluates `numpy.random.randint(StepWidth)` exactly once in the slice
  expression `ReconstructionNames[numpy.random.randint(StepWidth)::StepWidth]`.
-/

/-- Embeds `StepWidth = int(numpy.floor(len(ReconstructionNames) / float(options.numfiles)))`
(source line 173, by-count mode): `Nat` division is floor division for the
non-negative values that reach this line. -/
def StepWidth (total numfiles : Nat) : Nat :=
  total / numfiles

/-- Embeds `numpy.random.randint(n)` for `n ≥ 1`: a draw uniform on `[0, n)`,
modelled by reducing the external random source `r` modulo `n`. -/
def randint (n r : Nat) : Nat :=
  r % n

/-- Embeds `numpy.random.randint(n)` including its failure mode: numpy raises
`ValueError: low >= high` when `n = 0` (which is how the script dies when the
requested file count exceeds the number of slices). -/
def randintE (n r : Nat) : Except String Nat :=
  if n = 0 then Except.error "ValueError: low >= high" else Except.ok (r % n)

/-- Recursion core for the Python slice `names[offset::step]` read as the list
of selected indices `offset, offset + step, offset + 2*step, ...` below
`total`.  The `fuel` argument is a totality device only: each recursive call
advances `offset` by `step ≥ 1` while `offset < total`, so `fuel = total`
iterations always suffice (see `selectFrom`). -/
def selectAux : Nat → Nat → Nat → Nat → List Nat
  | 0, _, _, _ => []
  | fuel + 1, total, step, offset =>
    if offset < total then offset :: selectAux fuel total step (offset + step) else []

/-- Embeds the index set of the Python slice `ReconstructionNames[offset::step]`
(source line 204): the indices `offset, offset + step, offset + 2*step, ...`
strictly below `total`.  (Python raises before this point when `step = 0`,
see `randintE`; all theorems below assume `1 ≤ step`.) -/
def selectFrom (total step offset : Nat) : List Nat :=
  selectAux total total step offset

/-- Embeds the export-loop construction: the one random draw
`numpy.random.randint(StepWidth)` (raising when `StepWidth = 0`) followed by
the slice `ReconstructionNames[draw::StepWidth]` (source line 204). -/
def buildSelection (total step r : Nat) : Except String (List Nat) :=
  match randintE step r with
  | Except.error e => Except.error e
  | Except.ok o => Except.ok (selectFrom total step o)

/-- Embeds `len(ReconstructionNames[::StepWidth])` (source line 207): the
denominator printed in every per-slice progress line, computed with start
offset `0` regardless of the offset actually drawn for the export. -/
def displayedTotal (total step : Nat) : Nat :=
  (selectFrom total step 0).length

/-! ## Counting and ordering lemmas for the slice selection -/

theorem selectAux_length {step : Nat} (hs : 0 < step) :
    ∀ fuel total offset, total - offset ≤ fuel * step →
      (selectAux fuel total step offset).length = (total - offset + step - 1) / step := by
  intro fuel
  induction fuel with
  | zero =>
    intro total offset h
    have h0 : total - offset = 0 := by omega
    have e : total - offset + step - 1 = step - 1 := by omega
    simp only [selectAux, List.length_nil, e]
    rw [Nat.div_eq_of_lt (by omega)]
  | succ fuel ih =>
    intro total offset h
    by_cases hc : offset < total
    · have hfuel : total - (offset + step) ≤ fuel * step := by
        have e : (fuel + 1) * step = fuel * step + step := by ring
        omega
      simp only [selectAux, if_pos hc, List.length_cons]
      rw [ih total (offset + step) hfuel]
      have e1 : total - offset + step - 1 = (total - offset - 1) + step := by omega
      rw [e1, Nat.add_div_right _ hs]
      by_cases h2 : offset + step < total
      · have e2 : total - (offset + step) + step - 1 = total - offset - 1 := by omega
        rw [e2]
      · have e3 : total - (offset + step) + step - 1 = step - 1 := by omega
        rw [e3, Nat.div_eq_of_lt (by omega), Nat.div_eq_of_lt (by omega)]
    · simp only [selectAux, if_neg hc, List.length_nil]
      have e : total - offset + step - 1 = step - 1 := by omega
      rw [e, Nat.div_eq_of_lt (by omega)]

theorem length_selectFrom (total step offset : Nat) (hs : 0 < step) :
    (selectFrom total step offset).length = (total - offset + step - 1) / step := by
  have hfuel : total - offset ≤ total * step := by
    have h1 : total * 1 ≤ total * step := Nat.mul_le_mul_left total hs
    omega
  exact selectAux_length hs total total offset hfuel

theorem mem_selectAux :
    ∀ fuel total step offset x, x ∈ selectAux fuel total step offset →
      offset ≤ x ∧ x < total := by
  intro fuel
  induction fuel with
  | zero => intro total step offset x hx; simp [selectAux] at hx
  | succ fuel ih =>
    intro total step offset x hx
    by_cases hc : offset < total
    · simp only [selectAux, if_pos hc, List.mem_cons] at hx
      rcases hx with rfl | hx
      · exact ⟨Nat.le_refl x, hc⟩
      · have h := ih total step (offset + step) x hx
        omega
    · simp [selectAux, if_neg hc] at hx

theorem mem_selectFrom {total step offset x : Nat}
    (hx : x ∈ selectFrom total step offset) : offset ≤ x ∧ x < total :=
  mem_selectAux total total step offset x hx

theorem sorted_selectAux {step : Nat} (hs : 0 < step) :
    ∀ fuel total offset, List.Sorted (· < ·) (selectAux fuel total step offset) := by
  intro fuel
  induction fuel with
  | zero => intro total offset; simp [selectAux]
  | succ fuel ih =>
    intro total offset
    by_cases hc : offset < total
    · simp only [selectAux, if_pos hc]
      refine List.sorted_cons.mpr ⟨?_, ih total (offset + step)⟩
      intro b hb
      have h := mem_selectAux fuel total step (offset + step) b hb
      omega
    · simp [selectAux, if_neg hc]

theorem sorted_selectFrom (total step offset : Nat) (hs : 0 < step) :
    List.Sorted (· < ·) (selectFrom total step offset) :=
  sorted_selectAux hs total total offset

/-! ## Claim C1 -/

/-- **C1, counterexample.** The claim as stated fails: with `total_count = 10`
and `requested_count = 6 ≤ 10`, the step width is `10 / 6 = 1`, every one of
the 10 slices is selected (whatever the draw: the only offset below 1 is 0),
and `10` is not within `±1` of the requested `6`. -/
theorem c1_counterexample :
    StepWidth 10 6 = 1 ∧
    (selectFrom 10 (StepWidth 10 6) (randint (StepWidth 10 6) 0)).length = 10 ∧
    ¬((selectFrom 10 (StepWidth 10 6) (randint (StepWidth 10 6) 0)).length ≤ 6 + 1 ∧
      6 ≤ (selectFrom 10 (StepWidth 10 6) (randint (StepWidth 10 6) 0)).length + 1) := by
  decide

/-- **C1, amended.** For every total slice count and requested file count with
`1 ≤ requested_count ≤ total_count`, the by-count sampling plan has
`step_width ≥ 1`, the number of selected slice indices is
`⌊total_count/step_width⌋` or `⌊total_count/step_width⌋ + 1` depending on the
random start offset, and that number is always **at least** `requested_count`
(it can exceed it by more than one, so it is not always within `±1`). -/
theorem c1_amended (total n r : Nat) (h1 : 1 ≤ n) (h2 : n ≤ total) :
    1 ≤ StepWidth total n ∧
    ((selectFrom total (StepWidth total n) (randint (StepWidth total n) r)).length
        = total / StepWidth total n ∨
     (selectFrom total (StepWidth total n) (randint (StepWidth total n) r)).length
        = total / StepWidth total n + 1) ∧
    n ≤ (selectFrom total (StepWidth total n) (randint (StepWidth total n) r)).length := by
  have hn : 0 < n := h1
  have hs : 1 ≤ StepWidth total n := (Nat.one_le_div_iff hn).mpr h2
  set s : Nat := StepWidth total n with hsdef
  have hspos : 0 < s := hs
  set o : Nat := randint s r with hodef
  have ho : o < s := Nat.mod_lt r hspos
  have hlen : (selectFrom total s o).length = (total - o + s - 1) / s :=
    length_selectFrom total s o hspos
  have hdm : s * (total / s) + total % s = total := Nat.div_add_mod total s
  have hr : total % s < s := Nat.mod_lt total hspos
  have hlow : total / s ≤ (selectFrom total s o).length := by
    rw [hlen]
    exact Nat.div_le_div_right (by omega)
  have hhigh : (selectFrom total s o).length < total / s + 2 := by
    rw [hlen]
    rw [Nat.div_lt_iff_lt_mul hspos]
    have e1 : (total / s + 2) * s = s * (total / s) + 2 * s := by ring
    omega
  have hq : n ≤ total / s := by
    rw [Nat.le_div_iff_mul_le hspos]
    have h3 : total / n * n ≤ total := Nat.div_mul_le_self total n
    calc n * s = s * n := Nat.mul_comm n s
      _ = total / n * n := by rw [hsdef]; rfl
      _ ≤ total := h3
  exact ⟨hs, by omega, by omega⟩

/-- **C1, witness** of the amended theorem at `total = 10`, `n = 3`, random
source `7` (drawn offset `10/3 = 3`, `7 % 3 = 1`). -/
theorem c1_amended_witness :
    1 ≤ StepWidth 10 3 ∧
    ((selectFrom 10 (StepWidth 10 3) (randint (StepWidth 10 3) 7)).length
        = 10 / StepWidth 10 3 ∨
     (selectFrom 10 (StepWidth 10 3) (randint (StepWidth 10 3) 7)).length
        = 10 / StepWidth 10 3 + 1) ∧
    3 ≤ (selectFrom 10 (StepWidth 10 3) (randint (StepWidth 10 3) 7)).length :=
  c1_amended 10 3 7 (by decide) (by decide)

/-! ## Claim C2 -/

/-- **C2, confirmed.** For every `step_width ≥ 1`, the start offset drawn by
the single `numpy.random.randint(StepWidth)` call lies in `[0, step_width)`,
and the selected index sequence `offset, offset + step, offset + 2*step, ...`
is strictly increasing with every index strictly below `total_count`.  (The
embedding makes the draw exactly once per run, mirroring the single evaluation
of `numpy.random.randint(StepWidth)` in the slice expression on line 204.) -/
theorem c2_offset_and_monotonicity (total step r : Nat) (hs : 1 ≤ step) :
    randint step r < step ∧
    List.Sorted (· < ·) (selectFrom total step (randint step r)) ∧
    (selectFrom total step (randint step r)).all (fun x => decide (x < total)) = true := by
  refine ⟨Nat.mod_lt r hs, sorted_selectFrom total step _ hs, ?_⟩
  rw [List.all_eq_true]
  intro x hx
  exact decide_eq_true (mem_selectFrom hx).2

/-- **C2, witness** at `total = 10`, `step = 3`, random source `7`. -/
theorem c2_witness :
    randint 3 7 < 3 ∧
    List.Sorted (· < ·) (selectFrom 10 3 (randint 3 7)) ∧
    (selectFrom 10 3 (randint 3 7)).all (fun x => decide (x < 10)) = true :=
  c2_offset_and_monotonicity 10 3 7 (by decide)

/-! ## Claim C5 -/

/-- **C5, confirmed.** If the requested file count exceeds the number of
available slices, the computed step width is `0` and plan construction fails:
`numpy.random.randint(0)` raises (numpy's `ValueError: low >= high`, the
`ValidationError` of the spec's error taxonomy) before any slice is selected. -/
theorem c5_zero_step_fails (total n r : Nat) (h : total < n) :
    StepWidth total n = 0 ∧
    buildSelection total (StepWidth total n) r = Except.error "ValueError: low >= high" := by
  have h0 : StepWidth total n = 0 := Nat.div_eq_of_lt h
  refine ⟨h0, ?_⟩
  rw [h0]
  rfl

/-- **C5, witness** at `total = 5`, requested `n = 8`, random source `0`. -/
theorem c5_zero_step_fails_witness :
    StepWidth 5 8 = 0 ∧
    buildSelection 5 (StepWidth 5 8) 0 = Except.error "ValueError: low >= high" :=
  c5_zero_step_fails 5 8 0 (by decide)

/-! ## Claim C10 -/

/-- **C10, confirmed.** The total shown in every per-slice progress line is
`len(ReconstructionNames[::StepWidth])`, the number of slices selected with
start offset `0`, i.e. `⌈total_count / step_width⌉`; it does not depend on the
offset actually drawn (the definition of `displayedTotal` takes no offset),
and whenever `total_count % step_width ≠ 0` there are offsets for which it
exceeds the actual number of exported slices by one. -/
theorem c10_displayed_total (total step : Nat) (hs : 0 < step) :
    displayedTotal total step = (total + step - 1) / step ∧
    (total % step ≠ 0 →
      ∃ o, o < step ∧
        displayedTotal total step = (selectFrom total step o).length + 1) := by
  have h0 : displayedTotal total step = (total + step - 1) / step := by
    unfold displayedTotal
    rw [length_selectFrom total step 0 hs, Nat.sub_zero]
  refine ⟨h0, fun hr => ⟨step - 1, by omega, ?_⟩⟩
  rw [h0, length_selectFrom total step (step - 1) hs]
  obtain ⟨q, hq⟩ : ∃ q, total / step = q := ⟨_, rfl⟩
  obtain ⟨r, hrr⟩ : ∃ r, total % step = r := ⟨_, rfl⟩
  have hdm : step * q + r = total := by rw [← hq, ← hrr]; exact Nat.div_add_mod total step
  have hrs : r < step := by rw [← hrr]; exact Nat.mod_lt total hs
  have hrne : r ≠ 0 := by rw [← hrr]; exact hr
  have hl : (total + step - 1) / step = q + 1 := by
    have e1 : total + step - 1 = step * (q + 1) + (r - 1) := by
      have e0 : step * (q + 1) = step * q + step := by ring
      rw [e0]
      generalize step * q = M at hdm ⊢
      omega
    rw [e1, Nat.mul_add_div hs, Nat.div_eq_of_lt (by omega), Nat.add_zero]
  have hr2 : (total - (step - 1) + step - 1) / step = q := by
    by_cases hge : step ≤ total
    · have e2 : total - (step - 1) + step - 1 = total := by omega
      rw [e2]
      exact hq
    · have hq0 : q = 0 := by rw [← hq]; exact Nat.div_eq_of_lt (by omega)
      have e3 : total - (step - 1) + step - 1 < step := by omega
      rw [Nat.div_eq_of_lt e3, hq0]
  rw [hl, hr2]

/-- **C10, witness** at `total = 10`, `step = 3`: the displayed total is
`⌈10/3⌉ = 4`, while the offset `2` exports only `3` slices. -/
theorem c10_displayed_total_witness :
    displayedTotal 10 3 = (10 + 3 - 1) / 3 ∧
    ∃ o, o < 3 ∧ displayedTotal 10 3 = (selectFrom 10 3 o).length + 1 := by
  have h := c10_displayed_total 10 3 (by decide)
  exact ⟨h.1, h.2 (by decide)⟩

/-! ## Pixel-size parsing (`get_pixelsize`, source lines 27-33) -/

/-- Bool test that `sub` occurs as a contiguous run inside `s`, starting at the
head of `s`. -/
def isLeadingRun : List Char → List Char → Bool
  | [], _ => true
  | _ :: _, [] => false
  | a :: as, b :: bs => a == b && isLeadingRun as bs

/-- Bool test that `sub` occurs as a contiguous run anywhere inside `s`. -/
def containsRun : List Char → List Char → Bool
  | s, sub =>
    match s with
    | [] => sub.isEmpty
    | _ :: rest => isLeadingRun sub s || containsRun rest sub

/-- Embeds the Python substring test `sub in s`. -/
def strContains (s sub : String) : Bool :=
  containsRun s.toList sub.toList

/-- Embeds the line filter of `get_pixelsize`:
`'Image Pixel' in line and 'Scaled' not in line` (source line 31). -/
def isPixelLine (line : String) : Bool :=
  strContains line "Image Pixel" && !(strContains line "Scaled")

/-- Splits a character list at every occurrence of `sep`, accumulating the
current (reversed) chunk; the executable core of Python's `str.split(sep)`
for a one-character separator. -/
def splitOnCharAux (sep : Char) : List Char → List Char → List (List Char)
  | [], cur => [cur.reverse]
  | c :: rest, cur =>
    if c == sep then cur.reverse :: splitOnCharAux sep rest []
    else splitOnCharAux sep rest (c :: cur)

/-- Embeds Python `s.split(sep)` for a one-character separator. -/
def pySplit (sep : Char) (s : String) : List String :=
  (splitOnCharAux sep s.toList []).map String.mk

/-- Embeds the extraction `line.split('=')[1]` (source line 32) at the string
level; `none` models the `IndexError` raised when the line has no `=`.  The
final `float(...)` conversion is left opaque: distinct numeric strings below
denote distinct floats. -/
def parseRHS (line : String) : Option String :=
  (pySplit '=' line).get? 1

/-- Embeds `get_pixelsize` (source lines 27-33): iterate over all lines and
re-assign `pixelsize` on **every** matching line; the outer `none` models the
`UnboundLocalError` when no line ever matches. -/
def get_pixelsize (lines : List String) : Option (Option String) :=
  lines.foldl (fun acc line => if isPixelLine line then some (parseRHS line) else acc) none

theorem get_pixelsize_foldl (lines : List String) (acc : Option (Option String)) :
    lines.foldl (fun a line => if isPixelLine line then some (parseRHS line) else a) acc
      = ((lines.filter isPixelLine).getLast?).elim acc (fun l => some (parseRHS l)) := by
  induction lines using List.reverseRecOn generalizing acc with
  | nil => rfl
  | append_singleton ls x ih =>
    rw [List.foldl_append, List.filter_append]
    cases hx : isPixelLine x with
    | false =>
      simp only [List.foldl_cons, List.foldl_nil, hx, if_neg Bool.false_ne_true,
        List.filter_cons, List.filter_nil, List.append_nil]
      exact ih acc
    | true =>
      simp only [List.foldl_cons, List.foldl_nil, hx, if_true, List.filter_cons,
        List.filter_nil]
      rw [List.getLast?_concat]
      rfl

/-! ## Claim C3 -/

/-- **C3, counterexample.** A log with two matching pixel-size lines: the code
resolves the value of the **second** (last) line, `20.0`, not the first,
`10.5`. -/
theorem c3_counterexample :
    get_pixelsize ["Image Pixel Size (um)=10.5", "Image Pixel Size (um)=20.0"]
      = some (some "20.0") ∧
    parseRHS "Image Pixel Size (um)=10.5" = some "10.5" ∧
    some (some "10.5") ≠ some (some ("20.0" : String)) := by
  refine ⟨by decide, by decide, by decide⟩

/-- **C3, amended.** When the metadata log contains several lines matching the
label substring (`'Image Pixel'`) and not the exclusion substring (`'Scaled'`),
the resolved pixel size is the value parsed from the **last** such line (the
loop re-assigns `pixelsize` on every match, so the final assignment wins). -/
theorem c3_last_match_resolves (lines : List String) :
    get_pixelsize lines = ((lines.filter isPixelLine).getLast?).map (fun l => parseRHS l) := by
  rw [get_pixelsize, get_pixelsize_foldl]
  cases (lines.filter isPixelLine).getLast? with
  | none => rfl
  | some l => rfl

/-! ## Resize-fraction resolution (source lines 123-130) -/

/-- Embeds the resize-fraction computation: error (via `parser.error`, a
non-zero exit) when the requested longest side exceeds the actual longest
side, otherwise the exact quotient `options.resize / float(longest_side)`. -/
def resizeFraction (requested longest : Nat) : Except String ℚ :=
  if longest < requested then Except.error "We will not upscale images"
  else Except.ok ((requested : ℚ) / (longest : ℚ))

/-! ## Claim C7 -/

/-- **C7, confirmed.** Resize-fraction resolution fails (with the
would-upscale error) exactly when the requested longest-side target exceeds
the actual longest side; otherwise it returns `requested / actual`, which is
always `≤ 1`. -/
theorem c7_resize_fraction (requested longest : Nat) :
    (resizeFraction requested longest = Except.error "We will not upscale images"
        ↔ longest < requested) ∧
    ∀ q, resizeFraction requested longest = Except.ok q →
      q = (requested : ℚ) / (longest : ℚ) ∧ q ≤ 1 := by
  constructor
  · constructor
    · intro h
      by_contra hc
      rw [resizeFraction, if_neg hc] at h
      exact Except.noConfusion h
    · intro h
      rw [resizeFraction, if_pos h]
  · intro q hq
    by_cases hc : longest < requested
    · rw [resizeFraction, if_pos hc] at hq
      exact Except.noConfusion hq
    · rw [resizeFraction, if_neg hc] at hq
      injection hq with hq
      subst hq
      refine ⟨rfl, ?_⟩
      rcases Nat.eq_zero_or_pos longest with h0 | hpos
      · subst h0
        simp
      · have hle : (requested : ℚ) ≤ (longest : ℚ) := by
          exact_mod_cast Nat.not_lt.mp hc
        have hlpos : (0 : ℚ) < (longest : ℚ) := by exact_mod_cast hpos
        exact (div_le_one hlpos).mpr hle

/-- **C7, witness** at `requested = 800`, `longest = 1000`: no error, and the
returned fraction `800/1000 ≤ 1`. -/
theorem c7_resize_fraction_witness :
    (resizeFraction 800 1000 = Except.error "We will not upscale images" ↔ 1000 < 800) ∧
    (((800 : Nat) : ℚ) / ((1000 : Nat) : ℚ) = ((800 : Nat) : ℚ) / ((1000 : Nat) : ℚ) ∧
      ((800 : Nat) : ℚ) / ((1000 : Nat) : ℚ) ≤ 1) := by
  have h := c7_resize_fraction 800 1000
  exact ⟨h.1, h.2 (((800 : Nat) : ℚ) / ((1000 : Nat) : ℚ)) rfl⟩

/-! ## Disector-thickness rejection (source lines 78-79) -/

/-- Embeds `if options.disectorthickness: parser.error(...)`: an unset option
(`none`) or the Python-falsy value `0.0` passes the check; every other value
triggers `parser.error`, a non-zero exit. -/
def disectorCheck : Option ℚ → Except String Unit
  | none => Except.ok ()
  | some d =>
    if d = 0 then Except.ok ()
    else Except.error "Disector functionality not implemented yet, sorry!"

/-! ## Claim C9 -/

/-- **C9, counterexample.** Supplying `0` for the disector-thickness option is
**not** rejected: `0.0` is falsy in Python, so the `parser.error` branch is
skipped and the run proceeds. -/
theorem c9_counterexample : disectorCheck (some 0) = Except.ok () := by
  rfl

/-- **C9, amended.** For every **nonzero** value supplied for the
disector-thickness option, the program rejects the run and terminates with an
error message (the disector feature is not implemented); a supplied value of
zero is treated like an absent option and is not rejected. -/
theorem c9_nonzero_rejected (d : ℚ) (hd : d ≠ 0) :
    disectorCheck (some d) = Except.error "Disector functionality not implemented yet, sorry!" := by
  rw [disectorCheck]
  rw [if_neg hd]

/-- **C9, witness** at the option value `5.3` (the `-d 5.3` example of the
usage string). -/
theorem c9_nonzero_rejected_witness :
    disectorCheck (some (53 / 10 : ℚ))
      = Except.error "Disector functionality not implemented yet, sorry!" :=
  c9_nonzero_rejected (53 / 10) (by norm_num)

/-! ## Output-folder collision guard (source lines 101-106) -/

/-- The observable filesystem state: the set of existing directories and the
files (path, contents) written so far. -/
structure FS where
  folders : List String
  files : List (String × String)

/-- Embeds one run's folder-creation guard plus export phase: `os.makedirs`
raises `FileExistsError` when the output folder exists, which the script
catches and turns into `sys.exit('Please delete the folder or choose other
parameters')` — a non-zero exit before any slice is read or written (second
component `some msg`).  Otherwise the folder is created and the exported
files are written into it. -/
def runExport (fs : FS) (outFolder : String) (outputs : List (String × String)) :
    FS × Option String :=
  if outFolder ∈ fs.folders then
    (fs, some "Please delete the folder or choose other parameters")
  else
    ({ folders := fs.folders ++ [outFolder],
       files := fs.files ++ outputs.map (fun o => (outFolder ++ "/" ++ o.1, o.2)) },
     none)

theorem runExport_collision (fs : FS) (out : String) (ys : List (String × String))
    (h : out ∈ fs.folders) :
    runExport fs out ys = (fs, some "Please delete the folder or choose other parameters") := by
  unfold runExport
  rw [if_pos h]

/-! ## Claim C6 -/

/-- **C6, confirmed.** Running the tool a second time with the same derived
output folder name terminates with a non-zero status (`sys.exit` message)
before exporting anything, and the filesystem — in particular every file
already present in that folder — is left exactly as the first run produced
it. -/
theorem c6_second_run_rejected (fs : FS) (out : String) (xs ys : List (String × String))
    (h : out ∉ fs.folders) :
    (runExport fs out xs).2 = none ∧
    (runExport (runExport fs out xs).1 out ys).2
        = some "Please delete the folder or choose other parameters" ∧
    (runExport (runExport fs out xs).1 out ys).1 = (runExport fs out xs).1 := by
  have h1 : runExport fs out xs
      = ({ folders := fs.folders ++ [out],
           files := fs.files ++ xs.map (fun o => (out ++ "/" ++ o.1, o.2)) }, none) := by
    unfold runExport
    rw [if_neg h]
  have hmem : out ∈ (runExport fs out xs).1.folders := by
    rw [h1]
    simp
  rw [runExport_collision (runExport fs out xs).1 out ys hmem]
  exact ⟨by rw [h1], rfl, rfl⟩

/-- **C6, witness**: starting from an empty filesystem, the first run into the
derived folder succeeds and the second is rejected without touching the
stored files. -/
theorem c6_second_run_rejected_witness :
    (runExport ⟨[], []⟩ "SampleA/STEPanizer_rec_HU_numfls5_pxsz11um_sclbr1000um"
        [("Sample_1.jpg", "JPEGDATA1")]).2 = none ∧
    (runExport (runExport ⟨[], []⟩ "SampleA/STEPanizer_rec_HU_numfls5_pxsz11um_sclbr1000um"
        [("Sample_1.jpg", "JPEGDATA1")]).1 "SampleA/STEPanizer_rec_HU_numfls5_pxsz11um_sclbr1000um"
        [("Sample_1.jpg", "JPEGDATA2")]).2
      = some "Please delete the folder or choose other parameters" ∧
    (runExport (runExport ⟨[], []⟩ "SampleA/STEPanizer_rec_HU_numfls5_pxsz11um_sclbr1000um"
        [("Sample_1.jpg", "JPEGDATA1")]).1 "SampleA/STEPanizer_rec_HU_numfls5_pxsz11um_sclbr1000um"
        [("Sample_1.jpg", "JPEGDATA2")]).1
      = (runExport ⟨[], []⟩ "SampleA/STEPanizer_rec_HU_numfls5_pxsz11um_sclbr1000um"
        [("Sample_1.jpg", "JPEGDATA1")]).1 :=
  c6_second_run_rejected ⟨[], []⟩ "SampleA/STEPanizer_rec_HU_numfls5_pxsz11um_sclbr1000um"
    [("Sample_1.jpg", "JPEGDATA1")] [("Sample_1.jpg", "JPEGDATA2")] (by simp)

/-! ## Common-prefix derivation (source line 167) -/

/-- Longest common leading run of two character lists. -/
def lcp2 : List Char → List Char → List Char
  | a :: as, b :: bs => if a = b then a :: lcp2 as bs else []
  | _, _ => []

/-- Embeds `os.path.commonprefix(names)`: the longest common leading substring
of all the strings (empty for an empty list). -/
def commonLead : List String → String
  | [] => ""
  | s :: ss => String.mk (ss.foldl (fun acc t => lcp2 acc t.toList) s.toList)

/-- Embeds `os.path.split(os.path.abspath(p))[1]`: `abspath` prepends the
(slash-separated) working directory and the split keeps only the final path
component, so the net effect is to take the part of `p` after its last `/`. -/
def afterLastSlash (s : String) : String :=
  (pySplit '/' s).getLastD s

/-- Python `str.lstrip(chars)`: remove the longest leading run of characters
drawn from the **character set** `cs`. -/
def pyLstrip (cs : List Char) (s : String) : String :=
  String.mk (s.toList.dropWhile (fun c => cs.contains c))

/-- Python `str.rstrip(chars)`: remove the longest trailing run of characters
drawn from the **character set** `cs`. -/
def pyRstrip (cs : List Char) (s : String) : String :=
  String.mk ((s.toList.reverse.dropWhile (fun c => cs.contains c)).reverse)

/-- Python `str.strip(chars)`: both ends. -/
def pyStrip (cs : List Char) (s : String) : String :=
  pyRstrip cs (pyLstrip cs s)

/-- Embeds the `CommonPrefix` expression of source line 167:
`os.path.split(os.path.abspath(os.path.commonprefix(ReconstructionNames)))[1]
.rstrip('0').strip('_rec').strip('_IR')`.  Note that Python's `strip('_rec')`
strips the character **set** `{'_', 'r', 'e', 'c'}` from both ends, not the
suffix token `"_rec"`. -/
def commonPrefixStem (names : List String) : String :=
  pyStrip ['_', 'I', 'R']
    (pyStrip ['_', 'r', 'e', 'c'] (pyRstrip ['0'] (afterLastSlash (commonLead names))))

/-- The source filename list of the claim: `Sample_rec0001.png` ...
`Sample_rec0099.png`. -/
def sampleRecNames : List String :=
  ["Sample_rec0001.png","Sample_rec0002.png","Sample_rec0003.png",
   "Sample_rec0004.png","Sample_rec0005.png","Sample_rec0006.png",
   "Sample_rec0007.png","Sample_rec0008.png","Sample_rec0009.png",
   "Sample_rec0010.png","Sample_rec0011.png","Sample_rec0012.png",
   "Sample_rec0013.png","Sample_rec0014.png","Sample_rec0015.png",
   "Sample_rec0016.png","Sample_rec0017.png","Sample_rec0018.png",
   "Sample_rec0019.png","Sample_rec0020.png","Sample_rec0021.png",
   "Sample_rec0022.png","Sample_rec0023.png","Sample_rec0024.png",
   "Sample_rec0025.png","Sample_rec0026.png","Sample_rec0027.png",
   "Sample_rec0028.png","Sample_rec0029.png","Sample_rec0030.png",
   "Sample_rec0031.png","Sample_rec0032.png","Sample_rec0033.png",
   "Sample_rec0034.png","Sample_rec0035.png","Sample_rec0036.png",
   "Sample_rec0037.png","Sample_rec0038.png","Sample_rec0039.png",
   "Sample_rec0040.png","Sample_rec0041.png","Sample_rec0042.png",
   "Sample_rec0043.png","Sample_rec0044.png","Sample_rec0045.png",
   "Sample_rec0046.png","Sample_rec0047.png","Sample_rec0048.png",
   "Sample_rec0049.png","Sample_rec0050.png","Sample_rec0051.png",
   "Sample_rec0052.png","Sample_rec0053.png","Sample_rec0054.png",
   "Sample_rec0055.png","Sample_rec0056.png","Sample_rec0057.png",
   "Sample_rec0058.png","Sample_rec0059.png","Sample_rec0060.png",
   "Sample_rec0061.png","Sample_rec0062.png","Sample_rec0063.png",
   "Sample_rec0064.png","Sample_rec0065.png","Sample_rec0066.png",
   "Sample_rec0067.png","Sample_rec0068.png","Sample_rec0069.png",
   "Sample_rec0070.png","Sample_rec0071.png","Sample_rec0072.png",
   "Sample_rec0073.png","Sample_rec0074.png","Sample_rec0075.png",
   "Sample_rec0076.png","Sample_rec0077.png","Sample_rec0078.png",
   "Sample_rec0079.png","Sample_rec0080.png","Sample_rec0081.png",
   "Sample_rec0082.png","Sample_rec0083.png","Sample_rec0084.png",
   "Sample_rec0085.png","Sample_rec0086.png","Sample_rec0087.png",
   "Sample_rec0088.png","Sample_rec0089.png","Sample_rec0090.png",
   "Sample_rec0091.png","Sample_rec0092.png","Sample_rec0093.png",
   "Sample_rec0094.png","Sample_rec0095.png","Sample_rec0096.png",
   "Sample_rec0097.png","Sample_rec0098.png","Sample_rec0099.png"]

/-! ## Claim C4 -/

/-- **C4, evaluation at the failing input.** On the stack
`Sample_rec0001.png .. Sample_rec0099.png` the common prefix is
`"Sample_rec00"`; after `rstrip('0')` it is `"Sample_rec"`, and
`strip('_rec')` then strips the characters `_`, `r`, `e`, `c` from both ends —
eating the final `e` of `Sample` — so the code produces `"Sampl"`, not the
`"Sample"` required by the claim, the spec and the script's own comment
("Strip trailing zeroes and 'rec'"). -/
theorem c4_common_prefix_eval :
    commonPrefixStem sampleRecNames = "Sampl" ∧ ("Sampl" : String) ≠ "Sample" := by
  exact ⟨by decide, by decide⟩

/-! ## Scale-bar stamping (source lines 211-215) -/

/-- Python 3 `round` (banker's rounding, half to even) on an exact rational. -/
def pyRound (q : ℚ) : ℤ :=
  if q - ⌊q⌋ < 1 / 2 then ⌊q⌋
  else if (1 : ℚ) / 2 < q - ⌊q⌋ then ⌊q⌋ + 1
  else if ⌊q⌋ % 2 = 0 then ⌊q⌋ else ⌊q⌋ + 1

/-- numpy's resolution of a slice bound against an axis of length `n`: a
negative bound has `n` added, and the result is clamped into `[0, n]` —
never an error. -/
def npResolve (n : Nat) (i : ℤ) : Nat :=
  (min (max (if i < 0 then i + n else i) 0) n).toNat

/-- Embeds the scale-bar stamp
`rec[int(round(-fromborder - ScaleBarPixels / 10.)):-fromborder,
     int(round(-fromborder - ScaleBarPixels)):-fromborder] = 255`
(source lines 213-215, `fromborder = 50`) on an `h × w` image given as a pixel
function: every pixel whose row lies in the resolved row range and whose
column lies in the resolved column range becomes the maximum brightness 255;
all other pixels are unchanged.  The bounds are resolved by `npResolve`, so
the region is silently clamped against the image, exactly as numpy slice
assignment behaves. -/
def stampScaleBar (h w sb : Nat) (px : Nat → Nat → Nat) : Nat → Nat → Nat :=
  fun i j =>
    if npResolve h (pyRound (-(50 : ℚ) - (sb : ℚ) / 10)) ≤ i ∧ i < npResolve h (-50) ∧
       npResolve w (pyRound (-(50 : ℚ) - (sb : ℚ))) ≤ j ∧ j < npResolve w (-50)
    then 255 else px i j

/-- Embeds the per-slice export step around the stamping: decoding has already
produced the pixel array, and the stamping itself has no failure path — the
slice assignment cannot raise for any image size. -/
def exportSlice (h w sb : Nat) (px : Nat → Nat → Nat) :
    Except String (Nat → Nat → Nat) :=
  Except.ok (stampScaleBar h w sb px)

/-! ## Claim C8 -/

/-- **C8, counterexample.** A `10 × 10` image is far too small to contain the
stamp region for a 100 px scale bar (needs `≥ 150 × 60` beyond the 50 px
margin), yet exporting the slice does **not** fail: both resolved row and
column stop bounds clamp to `0`, the region is empty, and the image is
exported unchanged. -/
theorem c8_counterexample :
    (exportSlice 10 10 100 (fun _ _ => 0)).isOk = true ∧
    stampScaleBar 10 10 100 (fun _ _ => 0) = (fun _ _ => 0) := by
  have h1 : npResolve 10 (-50 : ℤ) = 0 := by decide
  refine ⟨rfl, funext fun i => funext fun j => ?_⟩
  simp only [stampScaleBar, h1]
  exact if_neg (fun hc => absurd hc.2.1 (Nat.not_lt_zero i))

/-- **C8, amended.** For every image, stamping never fails — numpy's
negative-index slice semantics silently clamp the stamp region against the
image bounds instead of raising a `ValidationError`; in particular, whenever
either image dimension is at most the 50 px margin the clamped region is
empty and the slice is exported with its pixels unchanged. -/
theorem c8_stamp_clamps_silently (h w sb : Nat) (px : Nat → Nat → Nat) :
    (exportSlice h w sb px).isOk = true ∧
    (h ≤ 50 ∨ w ≤ 50 → stampScaleBar h w sb px = px) := by
  have hres : ∀ n : Nat, n ≤ 50 → npResolve n (-50 : ℤ) = 0 := by
    intro n hn
    unfold npResolve
    rw [if_pos (by decide : (-50 : ℤ) < 0)]
    have hmax : max ((-50 : ℤ) + n) 0 = 0 := max_eq_right (by omega)
    rw [hmax]
    have hmin : min (0 : ℤ) (n : ℤ) = 0 := min_eq_left (by omega)
    rw [hmin]
    rfl
  refine ⟨rfl, fun hsmall => funext fun i => funext fun j => ?_⟩
  rcases hsmall with hh | hw
  · have h0 : npResolve h (-50 : ℤ) = 0 := hres h hh
    simp only [stampScaleBar, h0]
    exact if_neg (fun hc => absurd hc.2.1 (Nat.not_lt_zero i))
  · have h0 : npResolve w (-50 : ℤ) = 0 := hres w hw
    simp only [stampScaleBar, h0]
    exact if_neg (fun hc => absurd hc.2.2.2 (Nat.not_lt_zero j))

/-- **C8, witness** of the amended theorem on a `40 × 200` image with a
60 px scale bar: export succeeds and, the height being at most the margin,
the image is unchanged. -/
theorem c8_stamp_clamps_silently_witness :
    (exportSlice 40 200 60 (fun _ _ => 7)).isOk = true ∧
    stampScaleBar 40 200 60 (fun _ _ => 7) = (fun _ _ => 7) := by
  have h := c8_stamp_clamps_silently 40 200 60 (fun _ _ => 7)
  exact ⟨h.1, h.2 (Or.inl (by decide))⟩
